import Mathlib

/-!
Shallow embedding of the RemnaWave VPN orchestrator core
(`src/app/services/client.py`, `src/app/repositories/client.py`,
`src/app/models/client.py`, `src/app/models/operation.py`).

Time is modelled as an integer (seconds); `timedelta(days=d)` becomes
`d * 86400`. The asynchronous SQLAlchemy session becomes an explicit
`OrchState` holding the `clients` and `operations` tables; the RemnaWave
gateway becomes explicit `Except String _` outcomes passed into each
operation (the outcome the remote call would have had, had it been
reached). Each service operation returns the new state, the list of
audit entries it wrote during the invocation, and an `Except` result
mirroring the Python return-or-raise behaviour.
-/

namespace VpnOrch

/-- One day in seconds: `timedelta(days=1)`. -/
def daySecs : Int := 86400

/-- `t + timedelta(days=d)`. -/
def addDays (t : Int) (d : Int) : Int := t + d * daySecs

/-- `ClientStatus` enum from `app/models/client.py`. -/
inductive ClientStatus where
  | active
  | blocked
deriving DecidableEq, Repr

/-- `ActionType` enum from `app/models/operation.py`. -/
inductive ActionType where
  | create
  | delete
  | extend
  | block
  | unblock
  | get_config
  | rotate_config
  | auto_deactivate
deriving DecidableEq, Repr

/-- `OperationResult` enum from `app/models/operation.py`. -/
inductive OperationResult where
  | success
  | fail
deriving DecidableEq, Repr

/-- The JSON payloads actually written by `ClientService` call sites. -/
inductive Payload where
  | createP (username : String) (days : Int)
  | extendFailP (days : Int)
  | extendOkP (days : Int) (new_expires_at : Int)
  | rotateOkP (new_short_uuid : String)
  | autoDeactivateP (expired_at : Int)
deriving DecidableEq, Repr

/-- Row of the `clients` table (`app/models/client.py`).
`id` is the primary key (opaque; modelled as `Nat`); nullable string
columns are `Option String`; `created_at` / `updated_at` are the
store-managed timestamps. -/
structure Client where
  id : Nat
  username : String
  remnawave_uuid : Option String := none
  short_uuid : Option String := none
  subscription_url : Option String := none
  status : ClientStatus := .active
  expires_at : Int
  created_at : Int := 0
  updated_at : Int := 0
deriving DecidableEq, Repr

/-- Row of the `operations` audit table (`app/models/operation.py`). -/
structure Operation where
  client_id : Nat
  action : ActionType
  payload : Option Payload := none
  result : OperationResult
  error : Option String := none
deriving DecidableEq, Repr

/-- The local database: the two tables the orchestrator touches. -/
structure OrchState where
  clients : List Client
  operations : List Operation
deriving DecidableEq, Repr

/-- What RemnaWave returns for `create_user` / `revoke_subscription`. -/
structure RwUser where
  uuid : String
  short_uuid : String
  subscription_url : String
deriving DecidableEq, Repr

/-- Python truthiness of a nullable string column
(`if client.remnawave_uuid:`): `None` and `""` are falsy. -/
def strTruthy : Option String → Bool
  | none => false
  | some s => !s.isEmpty

/-- The effective outcome of an optional remote call
(`if client.remnawave_uuid: await self._remnawave...`): skipped calls
behave as successes. -/
def effGw (c : Client) (gw : Except String Unit) : Except String Unit :=
  if strTruthy c.remnawave_uuid then gw else .ok ()

/-- The audit `result` recorded for a remote-call outcome. -/
def resOf {α : Type} : Except String α → OperationResult
  | .ok _ => .success
  | .error _ => .fail

/-- The audit `error` text recorded for a remote-call outcome. -/
def errOf {α : Type} : Except String α → Option String
  | .ok _ => none
  | .error e => some e

/-- Error taxonomy from `app/exceptions/handlers.py`, as raised by
`ClientService`. -/
inductive SvcError where
  | clientAlreadyExists (username : String)
  | clientNotFound (cid : Nat)
  | clientAlreadyBlocked
  | clientNotBlocked
  | clientConfigUnavailable
  | remnawaveIntegration (msg : String)
deriving DecidableEq, Repr

/-- Result of one service invocation: new database state, the audit
entries written during the invocation (in write order), and the
returned value or raised error. -/
def SvcResult (α : Type) := OrchState × List Operation × Except SvcError α

/-- `ClientRepository.get_by_id`. -/
def get_by_id (cs : List Client) (cid : Nat) : Option Client :=
  cs.find? (fun c => c.id == cid)

/-- `ClientRepository.get_by_username`. -/
def get_by_username (cs : List Client) (username : String) : Option Client :=
  cs.find? (fun c => c.username == username)

/-- `ClientRepository.update`: flush the modified row (matched by
primary key) back into the table. -/
def repoUpdate (cs : List Client) (c : Client) : List Client :=
  cs.map (fun x => if x.id = c.id then c else x)

/-- `ClientRepository.delete`: `session.delete(client)` removes the row;
the `cascade="all, delete-orphan"` relationship (and the FK
`ondelete="CASCADE"`) also removes the client's audit entries. -/
def repoDelete (st : OrchState) (c : Client) : OrchState :=
  { clients := st.clients.filter (fun x => x.id ≠ c.id),
    operations := st.operations.filter (fun op => op.client_id ≠ c.id) }

/-- The `expired` filter of `ClientRepository.get_list`:
`True` keeps `expires_at < now()`, `False` keeps `expires_at >= now()`,
`None` applies no restriction. -/
def expiredPred (now : Int) (expired : Option Bool) (c : Client) : Bool :=
  match expired with
  | some true => c.expires_at < now
  | some false => now ≤ c.expires_at
  | none => true

/-- The `status` filter of `ClientRepository.get_list`. -/
def statusPred (status : Option ClientStatus) (c : Client) : Bool :=
  match status with
  | some s => c.status == s
  | none => true

/-- `ORDER BY created_at DESC`: newest first. -/
def byNewest (a b : Client) : Prop := b.created_at ≤ a.created_at

instance : DecidableRel byNewest :=
  fun a b => inferInstanceAs (Decidable (b.created_at ≤ a.created_at))

instance : IsTotal Client byNewest :=
  ⟨fun a b => Int.le_total b.created_at a.created_at⟩

instance : IsTrans Client byNewest :=
  ⟨fun _ _ _ h₁ h₂ => le_trans h₂ h₁⟩

/-- `ClientRepository.get_list`: the filtered rows ordered newest first,
together with the count obtained from the identically-filtered
`SELECT count(*)`. -/
def get_list (cs : List Client) (status : Option ClientStatus)
    (expired : Option Bool) (now : Int) : List Client × Nat :=
  let filtered := cs.filter (fun c => statusPred status c && expiredPred now expired c)
  (List.insertionSort byNewest filtered, filtered.length)

/-- `ClientRepository.get_expired_active`: active clients past expiry. -/
def get_expired_active (cs : List Client) (now : Int) : List Client :=
  cs.filter (fun c => c.status == ClientStatus.active && c.expires_at < now)

/-- `ClientService.create_client`. `newId` is the fresh primary key the
store assigns on insert; `gw` is the outcome `create_user` would
produce. -/
def create_client (st : OrchState) (username : String) (days : Int)
    (now : Int) (newId : Nat) (gw : Except String RwUser) : SvcResult Client :=
  match get_by_username st.clients username with
  | some _ => (st, [], .error (.clientAlreadyExists username))
  | none =>
    let expire_at := addDays now days
    match gw with
    | .error e => (st, [], .error (.remnawaveIntegration e))
    | .ok rw_user =>
      let client : Client :=
        { id := newId
          username := username
          remnawave_uuid := some rw_user.uuid
          short_uuid := some rw_user.short_uuid
          subscription_url := some rw_user.subscription_url
          status := .active
          expires_at := expire_at
          created_at := now
          updated_at := now }
      let entry : Operation :=
        { client_id := client.id, action := .create
          payload := some (.createP username days), result := .success }
      ({ clients := st.clients ++ [client], operations := st.operations ++ [entry] },
       [entry], .ok client)

/-- `ClientService.delete_client`. `gw` is the outcome `delete_user`
would produce (only consulted when a truthy `remnawave_uuid` makes the
call happen). The success audit entry is written before the row is
removed; removing the row then cascades over the client's audit
entries. -/
def delete_client (st : OrchState) (cid : Nat)
    (gw : Except String Unit) : SvcResult Unit :=
  match get_by_id st.clients cid with
  | none => (st, [], .error (.clientNotFound cid))
  | some client =>
    match effGw client gw with
    | .ok _ =>
      let entry : Operation :=
        { client_id := client.id, action := .delete, result := .success }
      let st₁ : OrchState := { st with operations := st.operations ++ [entry] }
      (repoDelete st₁ client, [entry], .ok ())
    | .error e =>
      let entry : Operation :=
        { client_id := client.id, action := .delete, result := .fail, error := some e }
      ({ st with operations := st.operations ++ [entry] },
       [entry], .error (.remnawaveIntegration e))

/-- `ClientService.extend_subscription`. `gw` is the outcome
`update_expire_at` would produce. -/
def extend_subscription (st : OrchState) (cid : Nat) (days : Int)
    (now : Int) (gw : Except String Unit) : SvcResult Client :=
  match get_by_id st.clients cid with
  | none => (st, [], .error (.clientNotFound cid))
  | some client =>
    let base_date := max client.expires_at now
    let new_expires_at := addDays base_date days
    match effGw client gw with
    | .error e =>
      let entry : Operation :=
        { client_id := client.id, action := .extend
          payload := some (.extendFailP days), result := .fail, error := some e }
      ({ st with operations := st.operations ++ [entry] },
       [entry], .error (.remnawaveIntegration e))
    | .ok _ =>
      let client' : Client :=
        { client with expires_at := new_expires_at, updated_at := now }
      let entry : Operation :=
        { client_id := client.id, action := .extend
          payload := some (.extendOkP days new_expires_at), result := .success }
      ({ clients := repoUpdate st.clients client'
         operations := st.operations ++ [entry] },
       [entry], .ok client')

/-- `ClientService.block_client`. `gw` is the outcome `disable_user`
would produce. -/
def block_client (st : OrchState) (cid : Nat)
    (now : Int) (gw : Except String Unit) : SvcResult Client :=
  match get_by_id st.clients cid with
  | none => (st, [], .error (.clientNotFound cid))
  | some client =>
    if client.status = ClientStatus.blocked then
      (st, [], .error .clientAlreadyBlocked)
    else
      match effGw client gw with
      | .error e =>
        let entry : Operation :=
          { client_id := client.id, action := .block, result := .fail, error := some e }
        ({ st with operations := st.operations ++ [entry] },
         [entry], .error (.remnawaveIntegration e))
      | .ok _ =>
        let client' : Client := { client with status := .blocked, updated_at := now }
        let entry : Operation :=
          { client_id := client.id, action := .block, result := .success }
        ({ clients := repoUpdate st.clients client'
           operations := st.operations ++ [entry] },
         [entry], .ok client')

/-- `ClientService.unblock_client`. `gw` is the outcome `enable_user`
would produce. -/
def unblock_client (st : OrchState) (cid : Nat)
    (now : Int) (gw : Except String Unit) : SvcResult Client :=
  match get_by_id st.clients cid with
  | none => (st, [], .error (.clientNotFound cid))
  | some client =>
    if client.status ≠ ClientStatus.blocked then
      (st, [], .error .clientNotBlocked)
    else
      match effGw client gw with
      | .error e =>
        let entry : Operation :=
          { client_id := client.id, action := .unblock, result := .fail, error := some e }
        ({ st with operations := st.operations ++ [entry] },
         [entry], .error (.remnawaveIntegration e))
      | .ok _ =>
        let client' : Client := { client with status := .active, updated_at := now }
        let entry : Operation :=
          { client_id := client.id, action := .unblock, result := .success }
        ({ clients := repoUpdate st.clients client'
           operations := st.operations ++ [entry] },
         [entry], .ok client')

/-- What `ClientService.get_config` returns. -/
structure ConfigData where
  client_id : Nat
  short_uuid : String
  subscription_url : String
  config_data : String
deriving DecidableEq, Repr

/-- `ClientService.get_config`. `gw` is the outcome
`get_subscription_config` would produce. No local mutation. -/
def get_config (st : OrchState) (cid : Nat)
    (gw : Except String String) : SvcResult ConfigData :=
  match get_by_id st.clients cid with
  | none => (st, [], .error (.clientNotFound cid))
  | some client =>
    if !strTruthy client.short_uuid then
      (st, [], .error .clientConfigUnavailable)
    else
      match gw with
      | .error e =>
        let entry : Operation :=
          { client_id := client.id, action := .get_config, result := .fail, error := some e }
        ({ st with operations := st.operations ++ [entry] },
         [entry], .error (.remnawaveIntegration e))
      | .ok config_data =>
        let entry : Operation :=
          { client_id := client.id, action := .get_config, result := .success }
        ({ st with operations := st.operations ++ [entry] },
         [entry],
         .ok { client_id := client.id
               short_uuid := client.short_uuid.getD ""
               subscription_url := client.subscription_url.getD ""
               config_data := config_data })

/-- `ClientService.rotate_config`. `gw` is the outcome
`revoke_subscription` would produce. -/
def rotate_config (st : OrchState) (cid : Nat)
    (now : Int) (gw : Except String RwUser) : SvcResult Client :=
  match get_by_id st.clients cid with
  | none => (st, [], .error (.clientNotFound cid))
  | some client =>
    if !strTruthy client.remnawave_uuid then
      (st, [], .error .clientConfigUnavailable)
    else
      match gw with
      | .error e =>
        let entry : Operation :=
          { client_id := client.id, action := .rotate_config, result := .fail, error := some e }
        ({ st with operations := st.operations ++ [entry] },
         [entry], .error (.remnawaveIntegration e))
      | .ok rw_user =>
        let client' : Client :=
          { client with short_uuid := some rw_user.short_uuid
                        subscription_url := some rw_user.subscription_url
                        updated_at := now }
        let entry : Operation :=
          { client_id := client.id, action := .rotate_config
            payload := some (.rotateOkP rw_user.short_uuid), result := .success }
        ({ clients := repoUpdate st.clients client'
           operations := st.operations ++ [entry] },
         [entry], .ok client')

/-- Effective outcome of the sweep's `disable_user` call for one client
(`if client.remnawave_uuid: await self._remnawave.disable_user(...)`):
skipped on a falsy uuid. `gw` maps the RemnaWave uuid passed to
`disable_user` to that call's outcome. -/
def sweepGwRes (gw : String → Except String Unit) (c : Client) : Except String Unit :=
  match c.remnawave_uuid with
  | none => .ok ()
  | some u => if u.isEmpty then .ok () else gw u

/-- The audit entry one sweep iteration writes for `c`. -/
def sweepEntry (gw : String → Except String Unit) (c : Client) : Operation :=
  { client_id := c.id, action := .auto_deactivate
    payload := some (.autoDeactivateP c.expires_at)
    result := resOf (sweepGwRes gw c)
    error := errOf (sweepGwRes gw c) }

/-- One iteration of the `deactivate_expired` loop body for `client`:
attempt `disable_user`, on success block the client, persist, audit
`success` and bump the count; on failure audit `fail` and continue. -/
def deactStep (now : Int) (gw : String → Except String Unit)
    (acc : OrchState × Nat) (client : Client) : OrchState × Nat :=
  let s := acc.1
  let count := acc.2
  match sweepGwRes gw client with
  | .ok _ =>
    let client' : Client := { client with status := .blocked, updated_at := now }
    ({ clients := repoUpdate s.clients client'
       operations := s.operations ++
         [{ client_id := client.id, action := .auto_deactivate
            payload := some (.autoDeactivateP client.expires_at)
            result := .success }] },
     count + 1)
  | .error e =>
    ({ s with operations := s.operations ++
         [{ client_id := client.id, action := .auto_deactivate
            payload := some (.autoDeactivateP client.expires_at)
            result := .fail, error := some e }] },
     count)

/-- `ClientService.deactivate_expired`: sweep every active client past
expiry through the block path, isolating per-client failures; returns
the new state and the count of successfully deactivated clients. -/
def deactivate_expired (st : OrchState) (now : Int)
    (gw : String → Except String Unit) : OrchState × Nat :=
  (get_expired_active st.clients now).foldl (deactStep now gw) (st, 0)

/-- How the fully-successful sweep rewrites one stored row: a row whose
id occurs in the sweep's worklist `l` is replaced by its blocked
version, any other row is untouched. -/
def blockListed (now : Int) (l : List Client) (x : Client) : Client :=
  match l.find? (fun c => c.id == x.id) with
  | some c => { c with status := ClientStatus.blocked, updated_at := now }
  | none => x

/-- Sample database rows for concrete evaluations. -/
def cAlice : Client :=
  { id := 1, username := "alice", remnawave_uuid := some "rw-alice",
    short_uuid := some "sub-alice", subscription_url := some "https://vpn/alice",
    status := .active, expires_at := 30 * daySecs, created_at := 5, updated_at := 5 }

def cBob : Client :=
  { id := 2, username := "bob", remnawave_uuid := some "rw-bob",
    short_uuid := some "sub-bob", subscription_url := some "https://vpn/bob",
    status := .blocked, expires_at := -daySecs, created_at := 9, updated_at := 9 }

def cCarl : Client :=
  { id := 3, username := "carl", remnawave_uuid := some "rw-carl",
    short_uuid := some "sub-carl", subscription_url := some "https://vpn/carl",
    status := .active, expires_at := -2 * daySecs, created_at := 11, updated_at := 11 }

def sampleSt : OrchState := { clients := [cAlice, cBob, cCarl], operations := [] }

/-! ### Helper lemmas -/

theorem get_by_id_some_id {cs : List Client} {cid : Nat} {c : Client}
    (h : get_by_id cs cid = some c) : c.id = cid := by
  unfold get_by_id at h
  simpa using List.find?_some h

theorem get_by_id_repoUpdate (cs : List Client) (cid : Nat) (c c' : Client)
    (hc : get_by_id cs cid = some c) (hid : c'.id = c.id) :
    get_by_id (repoUpdate cs c') cid = some c' := by
  have hcid : c.id = cid := get_by_id_some_id hc
  induction cs with
  | nil => simp [get_by_id] at hc
  | cons x xs ih =>
    by_cases hx : x.id = cid
    · have hxc : x = c := by
        unfold get_by_id at hc
        rw [List.find?_cons_of_pos _ (by simpa using hx)] at hc
        exact Option.some.injEq _ _ ▸ hc.symm ▸ rfl
      subst hxc
      unfold get_by_id repoUpdate
      simp only [List.map_cons]
      rw [if_pos (by rw [hid]), List.find?_cons_of_pos _ (by simp [hid, hx])]
    · unfold get_by_id repoUpdate at *
      simp only [List.map_cons]
      rw [List.find?_cons_of_neg _ (by simpa using hx)] at hc
      rw [if_neg (by rw [hid, hcid]; exact hx),
        List.find?_cons_of_neg _ (by simpa using hx)]
      exact ih hc

theorem get_by_id_filter_out (cs : List Client) (cid : Nat) :
    get_by_id (cs.filter (fun x => x.id ≠ cid)) cid = none := by
  unfold get_by_id
  rw [List.find?_eq_none]
  intro x hx
  simp only [List.mem_filter, decide_not] at hx
  simpa using hx.2

/-! ### Claim theorems -/

/-- C2: when no client with the username exists and the gateway
`create_user` call fails, `create_client` fails with the
RemnaWave-integration error, inserts no client record, and writes no
audit entry: the state is returned exactly as it was. -/
theorem create_client_gateway_failure_no_state_change
    (st : OrchState) (username : String) (days now : Int) (newId : Nat) (e : String)
    (hfree : get_by_username st.clients username = none) :
    create_client st username days now newId (.error e) =
      (st, [], .error (.remnawaveIntegration e)) := by
  simp [create_client, hfree]

theorem create_client_gateway_failure_no_state_change_witness :
    create_client sampleSt "dora" 30 0 7 (.error "conn refused") =
      (sampleSt, [], .error (.remnawaveIntegration "conn refused")) :=
  create_client_gateway_failure_no_state_change sampleSt "dora" 30 0 7
    "conn refused" (by rfl)

/-- C3: a successful `extend_subscription` on an existing client sets
the new expiry to `max(old expiry, now) + days`; in particular, when
the old expiry is strictly in the future the new expiry is exactly
`old expiry + days`. -/
theorem extend_new_expiry_formula (st : OrchState) (cid : Nat) (days now : Int)
    (gw : Except String Unit) (c : Client)
    (hc : get_by_id st.clients cid = some c)
    (hgw : effGw c gw = .ok ()) :
    ∃ c', (extend_subscription st cid days now gw).2.2 = .ok c' ∧
      c'.expires_at = addDays (max c.expires_at now) days ∧
      (now < c.expires_at → c'.expires_at = addDays c.expires_at days) := by
  refine ⟨{ c with expires_at := addDays (max c.expires_at now) days, updated_at := now }, ?_, rfl, ?_⟩
  · simp [extend_subscription, hc, hgw]
  · intro h
    simp [max_eq_left (le_of_lt h)]

theorem extend_new_expiry_formula_witness :
    ∃ c', (extend_subscription sampleSt 1 10 0 (.ok ())).2.2 = .ok c' ∧
      c'.expires_at = addDays (max cAlice.expires_at 0) 10 ∧
      (0 < cAlice.expires_at → c'.expires_at = addDays cAlice.expires_at 10) :=
  extend_new_expiry_formula sampleSt 1 10 0 (.ok ()) cAlice (by rfl) (by rfl)

/-- C4: a successful `extend_subscription` with a number of days the
API schema accepts (`1 ≤ days ≤ 3650`) never decreases the client's
expiry; the returned client is also the one now stored under that id. -/
theorem extend_never_decreases_expiry (st : OrchState) (cid : Nat)
    (days now : Int) (gw : Except String Unit) (c c' : Client)
    (hdays : 1 ≤ days ∧ days ≤ 3650)
    (hc : get_by_id st.clients cid = some c)
    (hr : (extend_subscription st cid days now gw).2.2 = .ok c') :
    c.expires_at ≤ c'.expires_at ∧
      get_by_id (extend_subscription st cid days now gw).1.clients cid = some c' := by
  cases hgw : effGw c gw with
  | error e => simp [extend_subscription, hc, hgw] at hr
  | ok u =>
    have hr' : ({ c with expires_at := addDays (max c.expires_at now) days, updated_at := now } : Client) = c' := by
      simpa [extend_subscription, hc, hgw] using hr
    constructor
    · rw [← hr']
      show c.expires_at ≤ addDays (max c.expires_at now) days
      unfold addDays
      have h1 : c.expires_at ≤ max c.expires_at now := le_max_left _ _
      have h2 : (0:Int) ≤ days * daySecs := by
        have : (0:Int) ≤ daySecs := by norm_num [daySecs]
        exact mul_nonneg (by linarith [hdays.1]) this
      linarith
    · have hstate : (extend_subscription st cid days now gw).1.clients =
          repoUpdate st.clients c' := by
        simp [extend_subscription, hc, hgw, hr']
      rw [hstate]
      exact get_by_id_repoUpdate _ _ _ _ hc (by rw [← hr'])

theorem extend_never_decreases_expiry_witness :
    cAlice.expires_at ≤
      ({ cAlice with expires_at := 3456000, updated_at := 0 } : Client).expires_at ∧
    get_by_id (extend_subscription sampleSt 1 10 0 (.ok ())).1.clients 1 =
      some { cAlice with expires_at := 3456000, updated_at := 0 } :=
  extend_never_decreases_expiry sampleSt 1 10 0 (.ok ()) cAlice
    { cAlice with expires_at := 3456000, updated_at := 0 }
    ⟨by norm_num, by norm_num⟩ (by rfl) (by rfl)

/-- C6: blocking an already-blocked client fails with `AlreadyBlocked`,
and unblocking an active client fails with `NotBlocked`; in both cases
the state is returned unchanged and no audit entry is written (so no
gateway call, no local write, no audit write takes effect). -/
theorem block_unblock_illegal_transition_no_side_effects
    (st : OrchState) (cid : Nat) (now : Int) (gw : Except String Unit) (c : Client)
    (hc : get_by_id st.clients cid = some c) :
    (c.status = ClientStatus.blocked →
      block_client st cid now gw = (st, [], .error .clientAlreadyBlocked)) ∧
    (c.status = ClientStatus.active →
      unblock_client st cid now gw = (st, [], .error .clientNotBlocked)) := by
  constructor
  · intro h
    simp [block_client, hc, h]
  · intro h
    simp [unblock_client, hc, h]

theorem block_unblock_illegal_transition_no_side_effects_witness :
    block_client sampleSt 2 0 (.ok ()) = (sampleSt, [], .error .clientAlreadyBlocked) ∧
    unblock_client sampleSt 1 0 (.ok ()) = (sampleSt, [], .error .clientNotBlocked) :=
  ⟨(block_unblock_illegal_transition_no_side_effects sampleSt 2 0 (.ok ())
      cBob (by rfl)).1 (by rfl),
   (block_unblock_illegal_transition_no_side_effects sampleSt 1 0 (.ok ())
      cAlice (by rfl)).2 (by rfl)⟩

/-- C9: a successful `unblock_client` on a blocked client sets the
status back to active with no expiry check: the result is the same for
every value of `expires_at`, including one already in the past, and the
expiry itself is left untouched. -/
theorem unblock_client_no_expiry_check (st : OrchState) (cid : Nat) (now : Int)
    (gw : Except String Unit) (c : Client)
    (hc : get_by_id st.clients cid = some c)
    (hb : c.status = ClientStatus.blocked)
    (hgw : effGw c gw = .ok ()) :
    ∃ c', (unblock_client st cid now gw).2.2 = .ok c' ∧
      c'.status = ClientStatus.active ∧
      c'.id = c.id ∧ c'.expires_at = c.expires_at ∧
      get_by_id (unblock_client st cid now gw).1.clients cid = some c' := by
  refine ⟨{ c with status := .active, updated_at := now }, ?_, rfl, rfl, rfl, ?_⟩
  · simp [unblock_client, hc, hb, hgw]
  · have hstate : (unblock_client st cid now gw).1.clients =
        repoUpdate st.clients { c with status := .active, updated_at := now } := by
      simp [unblock_client, hc, hb, hgw]
    rw [hstate]
    exact get_by_id_repoUpdate _ _ _ _ hc rfl

theorem unblock_client_no_expiry_check_witness :
    ∃ c', (unblock_client sampleSt 2 0 (.ok ())).2.2 = .ok c' ∧
      c'.status = ClientStatus.active ∧
      c'.id = cBob.id ∧ c'.expires_at = cBob.expires_at ∧
      get_by_id (unblock_client sampleSt 2 0 (.ok ())).1.clients 2 = some c' :=
  unblock_client_no_expiry_check sampleSt 2 0 (.ok ()) cBob (by rfl) (by rfl) (by rfl)

theorem deact_foldl_operations (l : List Client) (s : OrchState) (k : Nat)
    (now : Int) (gw : String → Except String Unit) :
    (l.foldl (deactStep now gw) (s, k)).1.operations =
      s.operations ++ l.map (sweepEntry gw) := by
  induction l generalizing s k with
  | nil => simp
  | cons c l ih =>
    rw [List.foldl_cons]
    cases hgw : sweepGwRes gw c with
    | ok u =>
      have hstep : deactStep now gw (s, k) c =
          ({ clients := repoUpdate s.clients { c with status := .blocked, updated_at := now }, operations := s.operations ++ [sweepEntry gw c] }, k + 1) := by
        simp [deactStep, hgw, sweepEntry, resOf, errOf]
      rw [hstep, ih]
      simp
    | error e =>
      have hstep : deactStep now gw (s, k) c =
          ({ s with operations := s.operations ++ [sweepEntry gw c] }, k) := by
        simp [deactStep, hgw, sweepEntry, resOf, errOf]
      rw [hstep, ih]
      simp

theorem sweepGwRes_allOk (c : Client) : sweepGwRes (fun _ => .ok ()) c = .ok () := by
  unfold sweepGwRes
  cases c.remnawave_uuid with
  | none => rfl
  | some u => by_cases h : u.isEmpty <;> simp [h]

theorem blockListed_cons_hit (now : Int) (c : Client) (l : List Client)
    (x : Client) (hx : x.id = c.id) :
    blockListed now (c :: l) x =
      { c with status := ClientStatus.blocked, updated_at := now } := by
  unfold blockListed
  rw [List.find?_cons_of_pos _ (by simp [hx])]

theorem blockListed_cons_miss (now : Int) (c : Client) (l : List Client)
    (x : Client) (hx : x.id ≠ c.id) :
    blockListed now (c :: l) x = blockListed now l x := by
  unfold blockListed
  rw [List.find?_cons_of_neg _ (by simpa using fun h => hx h.symm)]

theorem blockListed_not_listed (now : Int) (l : List Client) (x : Client)
    (hx : ∀ y ∈ l, y.id ≠ x.id) :
    blockListed now l x = x := by
  unfold blockListed
  rw [List.find?_eq_none.mpr (by intro y hy; simpa using hx y hy)]

theorem deact_foldl_clients_allOk (l : List Client) (s : OrchState) (k : Nat)
    (now : Int) (hl : (l.map (fun c => c.id)).Nodup) :
    (l.foldl (deactStep now (fun _ => .ok ())) (s, k)).1.clients =
      s.clients.map (blockListed now l) := by
  induction l generalizing s k with
  | nil =>
    simp only [List.foldl_nil]
    have hall : ∀ cs : List Client, cs.map (blockListed now []) = cs := by
      intro cs
      induction cs with
      | nil => rfl
      | cons a t ih => rw [List.map_cons, blockListed_not_listed now [] a (by simp), ih]
    exact (hall s.clients).symm
  | cons c l ih =>
    have hl' : (∀ x ∈ l, ¬ x.id = c.id) ∧ (l.map (fun c => c.id)).Nodup := by
      simpa using hl
    rw [List.foldl_cons]
    have hstep : deactStep now (fun _ => .ok ()) (s, k) c =
        ({ clients := repoUpdate s.clients { c with status := .blocked, updated_at := now }, operations := s.operations ++ [sweepEntry (fun _ => .ok ()) c] }, k + 1) := by
      simp [deactStep, sweepGwRes_allOk, sweepEntry, resOf, errOf]
    rw [hstep, ih _ _ hl'.2]
    show (repoUpdate s.clients _).map (blockListed now l) = _
    unfold repoUpdate
    rw [List.map_map]
    apply List.map_congr_left
    intro x _
    by_cases hx : x.id = c.id
    · rw [Function.comp_apply, if_pos hx, blockListed_cons_hit now c l x hx]
      exact blockListed_not_listed now l _ (fun y hy => hl'.1 y hy)
    · rw [Function.comp_apply, if_neg hx, blockListed_cons_miss now c l x hx]

theorem blockListed_kills_expired_active (cs : List Client) (now : Int) :
    get_expired_active (cs.map (blockListed now (get_expired_active cs now))) now = [] := by
  refine List.filter_eq_nil_iff.mpr ?_
  intro x hx
  rw [List.mem_map] at hx
  obtain ⟨y, hy, rfl⟩ := hx
  cases hfind : (get_expired_active cs now).find? (fun c => c.id == y.id) with
  | some c =>
    simp only [blockListed, hfind]
    simp
  | none =>
    simp only [blockListed, hfind]
    intro hcon
    have hy' : y ∈ get_expired_active cs now := by
      refine List.mem_filter.mpr ⟨hy, ?_⟩
      simpa using hcon
    have := List.find?_eq_none.mp hfind y hy'
    simp at this

theorem deact_foldl_preserves (l : List Client) (s : OrchState) (k : Nat)
    (now : Int) (gw : String → Except String Unit) (x : Client)
    (hx : x ∈ s.clients) (hid : x.id ∉ l.map (fun c => c.id)) :
    x ∈ (l.foldl (deactStep now gw) (s, k)).1.clients := by
  induction l generalizing s k with
  | nil => simpa using hx
  | cons c l ih =>
    have hid' : x.id ≠ c.id ∧ x.id ∉ l.map (fun c => c.id) := by
      constructor
      · intro h
        exact hid (by simp [h])
      · intro h
        exact hid (by simp [h])
    rw [List.foldl_cons]
    cases hgw : sweepGwRes gw c with
    | ok u =>
      apply ih
      · show x ∈ (deactStep now gw (s, k) c).1.clients
        simp only [deactStep, hgw, repoUpdate]
        exact List.mem_map.mpr ⟨x, hx, by simp [hid'.1]⟩
      · exact hid'.2
    | error e =>
      apply ih
      · show x ∈ (deactStep now gw (s, k) c).1.clients
        simpa [deactStep, hgw] using hx
      · exact hid'.2

/-- C7: `deactivate_expired` is idempotent. After one run in which
every selected client succeeds, an immediately following second run
(same `now`, no intervening operations) selects zero clients, leaves
the state untouched, and returns a count of `0`; and any run — also one
with per-client gateway failures — leaves every client that was not
active-and-expired exactly as it was, so a rerun after a failure only
affects clients still active past their expiry. Client ids are assumed
distinct, as the store's primary key guarantees. -/
theorem deactivate_expired_idempotent (st : OrchState) (now : Int)
    (gw₂ : String → Except String Unit)
    (hids : (st.clients.map (fun c => c.id)).Nodup) :
    get_expired_active (deactivate_expired st now (fun _ => .ok ())).1.clients now = [] ∧
    deactivate_expired (deactivate_expired st now (fun _ => .ok ())).1 now gw₂ =
      ((deactivate_expired st now (fun _ => .ok ())).1, 0) ∧
    (∀ gw x, x ∈ st.clients →
      ¬(x.status = ClientStatus.active ∧ x.expires_at < now) →
      x ∈ (deactivate_expired st now gw).1.clients) := by
  have hl : ((get_expired_active st.clients now).map (fun c => c.id)).Nodup :=
    hids.sublist (List.Sublist.map _ (List.filter_sublist _))
  have hclients : (deactivate_expired st now (fun _ => .ok ())).1.clients =
      st.clients.map (blockListed now (get_expired_active st.clients now)) :=
    deact_foldl_clients_allOk _ _ _ _ hl
  have h1 : get_expired_active
      (deactivate_expired st now (fun _ => .ok ())).1.clients now = [] := by
    rw [hclients]
    exact blockListed_kills_expired_active _ _
  refine ⟨h1, ?_, ?_⟩
  · show (get_expired_active (deactivate_expired st now (fun _ => .ok ())).1.clients
        now).foldl (deactStep now gw₂)
        ((deactivate_expired st now (fun _ => .ok ())).1, 0) = _
    rw [h1]
    rfl
  · intro gw x hx hnx
    refine deact_foldl_preserves _ _ _ _ _ _ hx ?_
    intro hmem
    rw [List.mem_map] at hmem
    obtain ⟨y, hy, hxy⟩ := hmem
    have hycs : y ∈ st.clients := (List.mem_filter.mp hy).1
    have hyx : y = x := List.inj_on_of_nodup_map hids hycs hx hxy
    subst hyx
    have hpy := (List.mem_filter.mp hy).2
    simp only [Bool.and_eq_true, beq_iff_eq, decide_eq_true_eq] at hpy
    exact hnx hpy

theorem deactivate_expired_idempotent_witness :
    get_expired_active
      (deactivate_expired sampleSt 0 (fun _ => .ok ())).1.clients 0 = [] ∧
    deactivate_expired (deactivate_expired sampleSt 0 (fun _ => .ok ())).1 0
        (fun _ => .error "down") =
      ((deactivate_expired sampleSt 0 (fun _ => .ok ())).1, 0) ∧
    cBob ∈ (deactivate_expired sampleSt 0 (fun _ => .error "down")).1.clients := by
  have h := deactivate_expired_idempotent sampleSt 0 (fun _ => .error "down") (by decide)
  exact ⟨h.1, h.2.1, h.2.2 (fun _ => .error "down") cBob (by simp [sampleSt]) (by decide)⟩

/-- C1: every invocation that passes validation writes exactly one
audit entry for that invocation, whose `result` is `success` exactly
when the (effective) gateway call and the subsequent local write
succeed and `fail` when the gateway call fails; `create_client` is the
sole exception, writing no entry when the gateway call fails and one
`success` entry when it succeeds. The expiry sweep appends exactly one
entry per selected client, each matching that client's own gateway
outcome. -/
theorem audit_exactly_one_entry_per_invocation
    (st : OrchState) (cid newId : Nat) (days now : Int) (username : String)
    (e : String) (rw : RwUser) (gwU : Except String Unit)
    (gwS : Except String String) (gwR : Except String RwUser)
    (gwMap : String → Except String Unit) (c : Client)
    (hc : get_by_id st.clients cid = some c) :
    ((delete_client st cid gwU).2.1.map (fun o => (o.action, o.result)) =
       [(ActionType.delete, resOf (effGw c gwU))]) ∧
    ((extend_subscription st cid days now gwU).2.1.map (fun o => (o.action, o.result)) =
       [(ActionType.extend, resOf (effGw c gwU))]) ∧
    (c.status ≠ ClientStatus.blocked →
      (block_client st cid now gwU).2.1.map (fun o => (o.action, o.result)) =
        [(ActionType.block, resOf (effGw c gwU))]) ∧
    (c.status = ClientStatus.blocked →
      (unblock_client st cid now gwU).2.1.map (fun o => (o.action, o.result)) =
        [(ActionType.unblock, resOf (effGw c gwU))]) ∧
    (strTruthy c.short_uuid = true →
      (get_config st cid gwS).2.1.map (fun o => (o.action, o.result)) =
        [(ActionType.get_config, resOf gwS)]) ∧
    (strTruthy c.remnawave_uuid = true →
      (rotate_config st cid now gwR).2.1.map (fun o => (o.action, o.result)) =
        [(ActionType.rotate_config, resOf gwR)]) ∧
    (get_by_username st.clients username = none →
      (create_client st username days now newId (.error e)).2.1 = [] ∧
      (create_client st username days now newId (.ok rw)).2.1.map
          (fun o => (o.action, o.result)) = [(ActionType.create, OperationResult.success)]) ∧
    ((deactivate_expired st now gwMap).1.operations =
      st.operations ++ (get_expired_active st.clients now).map (sweepEntry gwMap)) := by
  refine ⟨?_, ?_, ?_, ?_, ?_, ?_, ?_, ?_⟩
  · cases hgw : effGw c gwU with
    | ok u => simp [delete_client, hc, hgw, resOf]
    | error err => simp [delete_client, hc, hgw, resOf]
  · cases hgw : effGw c gwU with
    | ok u => simp [extend_subscription, hc, hgw, resOf]
    | error err => simp [extend_subscription, hc, hgw, resOf]
  · intro h
    cases hgw : effGw c gwU with
    | ok u => simp [block_client, hc, h, hgw, resOf]
    | error err => simp [block_client, hc, h, hgw, resOf]
  · intro h
    cases hgw : effGw c gwU with
    | ok u => simp [unblock_client, hc, h, hgw, resOf]
    | error err => simp [unblock_client, hc, h, hgw, resOf]
  · intro h
    cases gwS with
    | ok v => simp [get_config, hc, h, resOf]
    | error err => simp [get_config, hc, h, resOf]
  · intro h
    cases gwR with
    | ok v => simp [rotate_config, hc, h, resOf]
    | error err => simp [rotate_config, hc, h, resOf]
  · intro h
    exact ⟨by simp [create_client, h], by simp [create_client, h]⟩
  · exact deact_foldl_operations _ _ _ _ _

theorem audit_exactly_one_entry_per_invocation_witness :
    ((delete_client sampleSt 1 (.error "down")).2.1.map (fun o => (o.action, o.result)) =
       [(ActionType.delete, OperationResult.fail)]) ∧
    ((extend_subscription sampleSt 1 7 0 (.ok ())).2.1.map (fun o => (o.action, o.result)) =
       [(ActionType.extend, OperationResult.success)]) ∧
    ((block_client sampleSt 1 0 (.ok ())).2.1.map (fun o => (o.action, o.result)) =
       [(ActionType.block, OperationResult.success)]) ∧
    ((unblock_client sampleSt 2 0 (.error "down")).2.1.map (fun o => (o.action, o.result)) =
       [(ActionType.unblock, OperationResult.fail)]) ∧
    ((get_config sampleSt 1 (.ok "cfg")).2.1.map (fun o => (o.action, o.result)) =
       [(ActionType.get_config, OperationResult.success)]) ∧
    ((rotate_config sampleSt 1 0 (.error "down")).2.1.map (fun o => (o.action, o.result)) =
       [(ActionType.rotate_config, OperationResult.fail)]) ∧
    ((create_client sampleSt "dora" 30 0 7 (.error "down")).2.1 = []) ∧
    ((create_client sampleSt "dora" 30 0 7
        (.ok { uuid := "u", short_uuid := "s", subscription_url := "l" })).2.1.map
        (fun o => (o.action, o.result)) = [(ActionType.create, OperationResult.success)]) ∧
    ((deactivate_expired sampleSt 0 (fun _ => .error "down")).1.operations =
      sampleSt.operations ++ (get_expired_active sampleSt.clients 0).map
        (sweepEntry (fun _ => .error "down"))) := by
  have h1 := audit_exactly_one_entry_per_invocation sampleSt 1 7 7 0 "dora"
    "down" { uuid := "u", short_uuid := "s", subscription_url := "l" }
    (.error "down") (.ok "cfg") (.error "down") (fun _ => .error "down") cAlice (by rfl)
  have h2 := audit_exactly_one_entry_per_invocation sampleSt 1 7 7 0 "dora"
    "down" { uuid := "u", short_uuid := "s", subscription_url := "l" }
    (.ok ()) (.ok "cfg") (.error "down") (fun _ => .error "down") cAlice (by rfl)
  have h3 := audit_exactly_one_entry_per_invocation sampleSt 2 7 7 0 "dora"
    "down" { uuid := "u", short_uuid := "s", subscription_url := "l" }
    (.error "down") (.ok "cfg") (.error "down") (fun _ => .error "down") cBob (by rfl)
  refine ⟨h1.1, h2.2.1, ?_, ?_, h1.2.2.2.2.1 (by rfl), h1.2.2.2.2.2.1 (by rfl),
    (h1.2.2.2.2.2.2.1 (by rfl)).1, (h1.2.2.2.2.2.2.1 (by rfl)).2, h1.2.2.2.2.2.2.2⟩
  · exact h2.2.2.1 (by simp [cAlice])
  · exact h3.2.2.2.1 (by rfl)

/-- C5: `delete_client` on an existing client. When a remote identity
is bound and the gateway delete fails, a `fail` audit entry is written,
`RemoteUnavailable` is surfaced, and the local record survives (the
clients table is unchanged). When the effective gateway outcome is a
success — the call succeeded or no remote identity exists — the
`success` audit entry is appended first and only then is the record
removed (`repoDelete` applies to the state already holding the entry),
after which the client can no longer be looked up. -/
theorem delete_client_audit_and_abort (st : OrchState) (cid : Nat)
    (gw : Except String Unit) (c : Client) (e : String)
    (hc : get_by_id st.clients cid = some c) :
    (strTruthy c.remnawave_uuid = true →
      delete_client st cid (.error e) =
        ({ st with operations := st.operations ++ [{ client_id := c.id, action := .delete, result := .fail, error := some e }] },
         [{ client_id := c.id, action := .delete, result := .fail, error := some e }],
         .error (.remnawaveIntegration e))) ∧
    (effGw c gw = .ok () →
      delete_client st cid gw =
        (repoDelete { st with operations := st.operations ++ [{ client_id := c.id, action := .delete, result := .success }] } c,
         [{ client_id := c.id, action := .delete, result := .success }],
         .ok ()) ∧
      get_by_id (delete_client st cid gw).1.clients cid = none) := by
  have hcid : c.id = cid := get_by_id_some_id hc
  constructor
  · intro h
    simp [delete_client, hc, effGw, h]
  · intro h
    constructor
    · simp [delete_client, hc, h]
    · have hclients : (delete_client st cid gw).1.clients =
          st.clients.filter (fun x => x.id ≠ c.id) := by
        simp [delete_client, hc, h, repoDelete]
      rw [hclients, hcid]
      exact get_by_id_filter_out _ _

theorem delete_client_audit_and_abort_witness :
    (delete_client sampleSt 1 (.error "down") =
      ({ sampleSt with operations := [{ client_id := 1, action := .delete, result := .fail, error := some "down" }] },
       [{ client_id := 1, action := .delete, result := .fail, error := some "down" }],
       .error (.remnawaveIntegration "down"))) ∧
    get_by_id (delete_client sampleSt 2 (.ok ())).1.clients 2 = none :=
  ⟨by
    have h := (delete_client_audit_and_abort sampleSt 1 (.error "dummy") cAlice
      "down" (by rfl)).1 (by rfl)
    simpa [sampleSt] using h,
   ((delete_client_audit_and_abort sampleSt 2 (.ok ()) cBob "unused"
      (by rfl)).2 (by rfl)).2⟩

theorem statusPred_iff (status : Option ClientStatus) (c : Client) :
    statusPred status c = true ↔ (∀ s, status = some s → c.status = s) := by
  cases status with
  | none => simp [statusPred]
  | some s => simp [statusPred]

theorem expiredPred_iff (expired : Option Bool) (now : Int) (c : Client) :
    expiredPred now expired c = true ↔
      ((expired = some true → c.expires_at < now) ∧
       (expired = some false → now ≤ c.expires_at)) := by
  cases expired with
  | none => simp [expiredPred]
  | some b => cases b <;> simp [expiredPred]

/-- C8: `get_list` returns exactly the clients passing the filters —
`expired = true` keeps `expires_at < now`, `expired = false` keeps
`expires_at ≥ now`, an absent expiry filter keeps everything, and a
present status filter keeps exactly that status — ordered by creation
time, newest first. -/
theorem get_list_filters_and_orders (cs : List Client)
    (status : Option ClientStatus) (expired : Option Bool) (now : Int) :
    (∀ c, c ∈ (get_list cs status expired now).1 ↔
      (c ∈ cs ∧ (∀ s, status = some s → c.status = s) ∧
       (expired = some true → c.expires_at < now) ∧
       (expired = some false → now ≤ c.expires_at))) ∧
    (get_list cs status expired now).1.Pairwise
      (fun a b => b.created_at ≤ a.created_at) := by
  constructor
  · intro c
    simp only [get_list, List.mem_insertionSort, List.mem_filter, Bool.and_eq_true,
      statusPred_iff, expiredPred_iff]
  · exact (List.sorted_insertionSort byNewest _).imp (fun h => h)

/-- C10: the `total` returned by `get_list` always equals the length of
the returned client list, because the count query applies exactly the
same filters and no pagination is applied. -/
theorem get_list_total_eq_length (cs : List Client) (status : Option ClientStatus)
    (expired : Option Bool) (now : Int) :
    (get_list cs status expired now).2 = (get_list cs status expired now).1.length := by
  simp [get_list, List.length_insertionSort]

end VpnOrch
